import Mathlib

/-
Verification development for `skfuzzy/control/fuzzyvariable.py`.

The file embeds the `FuzzyVariable` class shallowly:
  * the universe and every membership array are `List ℚ` (numpy float
    arrays; the claims under study only involve exact arithmetic);
  * the insertion-ordered `OrderedDict` registry `self.mf` is an
    association list `List (String × PyVal)` where replacement keeps the
    original position and a new key is appended;
  * Python exceptions are an explicit `PyExc` value; an operation that can
    raise returns the (possibly partially) mutated state together with an
    optional exception, matching Python's semantics where mutations
    performed before a raise stay committed;
  * the `__name__` attribute read by `__getitem__` and `automf` is not set
    by `FuzzyVariable.__init__` itself (it exists only on instances whose
    class provides it, e.g. `Antecedent`); the field `name : Option String`
    models its presence or absence.
-/

/-- The single-quote character, used to build Python error strings. -/
def quoteCh : String := String.singleton (Char.ofNat 39)

/-- Python exception values relevant to `fuzzyvariable.py`.  `keyError` and
`indexError` are the concrete subclasses of Python's `LookupError`; they are
included so that membership in the `LookupError` class hierarchy is a
non-trivial predicate. -/
inductive PyExc where
  | valueError (msg : String)
  | attributeError (msg : String)
  | keyError (msg : String)
  | indexError (msg : String)
  deriving DecidableEq

/-- Python's exception hierarchy: `KeyError` and `IndexError` derive from
`LookupError`; `ValueError` and `AttributeError` do not. -/
def PyExc.isLookupErrorClass : PyExc → Bool
  | .keyError _ => true
  | .indexError _ => true
  | .valueError _ => false
  | .attributeError _ => false

/-- A Python value passed to the indexed-write protocol: either a plain
sequence (e.g. a `list`, which has no `.size` attribute) or a numpy
`ndarray` (which has `.size`). -/
inductive PyVal where
  | pyList (xs : List ℚ)
  | ndarray (xs : List ℚ)
  deriving DecidableEq

/-- The numeric contents of a value. -/
def elems : PyVal → List ℚ
  | .pyList xs => xs
  | .ndarray xs => xs

/-- Conversion `np.asarray`: converts any array-like to an `ndarray` with the same
elements. -/
def asarray (v : PyVal) : PyVal := .ndarray (elems v)

/-- Attribute access `v.size`: defined on `ndarray`, an `AttributeError`
(`none`) on a plain list. -/
def sizeAttr : PyVal → Option Nat
  | .pyList _ => none
  | .ndarray xs => some xs.length

/-- Message of the `AttributeError` raised by evaluating `item.size` on a
plain Python list (source line 90). -/
def listNoSizeMsg : String :=
  quoteCh ++ "list" ++ quoteCh ++ " object has no attribute " ++ quoteCh ++ "size" ++ quoteCh

/-- Message of the `AttributeError` raised when `self.__name__` is read on a
plain `FuzzyVariable` instance (source lines 77 and 205). -/
def noNameMsg : String :=
  quoteCh ++ "FuzzyVariable" ++ quoteCh ++ " object has no attribute " ++ quoteCh ++ "__name__" ++ quoteCh

/-- Message of the `ValueError` raised by `np.min` on an empty array
(source line 196). -/
def zeroSizeMsg : String :=
  "zero-size array to reduction operation minimum which has no identity"

/-- State of a `FuzzyVariable` instance (source lines 34-52).  `univ` is the
source's `universe` field (a Lean keyword).  The `connections` dict and the
numeric `_id` are never read by the operations under study and are omitted.
`output` is `None` or an (empty) ordered dict, modelled as `Option Unit`. -/
structure FuzzyVariable where
  univ : List ℚ
  active : Option String
  mf : List (String × PyVal)
  label : String
  name : Option String
  output : Option Unit
  deriving DecidableEq

/-- Constructor `FuzzyVariable.__init__` (source lines 34-52): fresh state with an empty
registry; the `__name__` attribute is never set. -/
def FuzzyVariable.mkVar (u : List ℚ) (lb : String) : FuzzyVariable :=
  { univ := u, active := none, mf := [], label := lb, name := none, output := none }

/-- Membership test `key in self.mf` (source line 58). -/
def hasLabel (s : FuzzyVariable) (key : String) : Bool :=
  s.mf.any (fun p => p.1 == key)

/-- The options string built by the loop of `__getitem__` (source lines
64-73): entries are quoted and joined with a semicolon-space, except that
the second-to-last entry is followed by a comma and "or " and the last
entry by a terminal period. -/
def optionsString (keys : List String) : String :=
  (keys.enum.foldl (fun acc p =>
    if (p.1 : Int) = (keys.length : Int) - 2 then
      acc ++ quoteCh ++ p.2 ++ quoteCh ++ ", or "
    else if (p.1 : Int) = (keys.length : Int) - 1 then
      acc ++ quoteCh ++ p.2 ++ quoteCh ++ "."
    else
      acc ++ quoteCh ++ p.2 ++ quoteCh ++ "; ") "")

/-- The formatted message of the `ValueError` raised by `__getitem__` for an
unregistered label (source lines 74-77). -/
def unregisteredMsg (key nm lbl : String) (keys : List String) : String :=
  "Membership function " ++ quoteCh ++ key ++ quoteCh ++ " does not exist for "
    ++ nm ++ " " ++ lbl ++ ".\nAvailable options: " ++ optionsString keys

/-- Indexed read `FuzzyVariable.__getitem__` (source lines 54-77).  On a registered label
the active pointer is set and the variable itself is returned.  Otherwise
the options string is built and the error message formatted; evaluating the
format argument `self.__name__` raises an `AttributeError` when the
attribute is absent, before the `ValueError` can be raised. -/
def getitem (s : FuzzyVariable) (key : String) : Except PyExc FuzzyVariable :=
  if hasLabel s key then
    .ok { s with active := some key }
  else
    match s.name with
    | none => .error (.attributeError noNameMsg)
    | some nm =>
        .error (.valueError (unregisteredMsg key nm s.label (s.mf.map Prod.fst)))

/-- Assignment `self.mf[key] = item` on an `OrderedDict`: an existing key keeps its
position and gets the new value; a new key is appended. -/
def updateAssoc (l : List (String × PyVal)) (k : String) (v : PyVal) :
    List (String × PyVal) :=
  if l.any (fun p => p.1 == k) then
    l.map (fun p => if p.1 == k then (k, v) else p)
  else
    l ++ [(k, v)]

/-- Reading `variable.mf[label]` on the ordered registry: the value stored
under the first (unique) matching key. -/
def mfLookup : List (String × PyVal) → String → Option PyVal
  | [], _ => none
  | p :: rest, k => if p.1 = k then some p.2 else mfLookup rest k

/-- The formatted message of the length-mismatch `ValueError` of
`__setitem__` (source lines 87-90). -/
def mismatchMsg (key : String) (expected got : Nat) : String :=
  "New membership function " ++ key
    ++ " must be equivalent in length to the universe variable.\nExpected "
    ++ toString expected ++ ", got " ++ toString got ++ "."

/-- Indexed write `FuzzyVariable.__setitem__` (source lines 79-91).  The converted array
`mf = np.asarray(item)` is compared in size to the universe; on a mismatch
the error message evaluates `item.size` on the ORIGINAL item, which raises
an `AttributeError` when `item` is a plain list.  On success the original
`item` (not the converted array) is stored. -/
def setitem (s : FuzzyVariable) (key : String) (item : PyVal) :
    FuzzyVariable × Option PyExc :=
  if (elems (asarray item)).length ≠ s.univ.length then
    match sizeAttr item with
    | some got => (s, some (.valueError (mismatchMsg key s.univ.length got)))
    | none => (s, some (.attributeError listNoSizeMsg))
  else
    ({ s with mf := updateAssoc s.mf key item }, none)

/-- Modelled from the spec: `trimf` is imported by `fuzzyvariable.py` from
`skfuzzy.membership`, whose source is not part of this file set.  §4.1 of
the spec defines it: membership is 0 for `x ≤ a` or `x ≥ c`, rises linearly
from 0 to 1 over `[a, b]`, falls linearly from 1 to 0 over `[b, c]`, and
equals 1 at `x = b`; degenerate `a = b` or `b = c` produce a ramp. -/
def trimfAt (a b c x : ℚ) : ℚ :=
  if x = b then 1
  else if a < x ∧ x < b then (x - a) / (b - a)
  else if b < x ∧ x < c then (c - x) / (c - b)
  else 0

/-- Modelled from the spec: `trimf(universe, [a, b, c])` tabulates the
triangular membership at every universe point; output length equals the
universe length. -/
def trimf (u : List ℚ) (abc : ℚ × ℚ × ℚ) : List ℚ :=
  u.map (fun x => trimfAt abc.1 abc.2.1 abc.2.2 x)

/-- Method `variable_type.lower()` (source line 166): Python's ASCII
per-character lowercasing of the string. -/
def pyLower (s : String) : String := String.mk (s.data.map Char.toLower)

/-- The fixed `'quality'` vocabulary (source lines 167-173). -/
def qualityNames : List String :=
  ["dismal", "poor", "mediocre", "average", "decent", "good", "excellent"]

/-- The fixed `'quant'` vocabulary (source lines 175-181), used for any
`variable_type` other than `'quality'`. -/
def quantNames : List String :=
  ["lowest", "lower", "low", "average", "high", "higher", "highest"]

/-- Stride-2 selection: `l[::2]` on a Python list. -/
def everyOther : List String → List String
  | [] => []
  | [x] => [x]
  | x :: _ :: rest => x :: everyOther rest

/-- The name list computed by `automf` before validation (source lines
166-189): vocabulary choice by `variable_type.lower()`, the `names[1:6:2]`
slice for `number == 3`, the `names[1:6]` slice for `number == 5`, and the
`names[::-1]` reversal when `invert` is true. -/
def automfNames (vtype : String) (number : Int) (invert : Bool) : List String :=
  let names0 := if pyLower vtype = "quality" then qualityNames else quantNames
  let names1 := if number = 3 then everyOther ((names0.drop 1).take 5) else names0
  let names2 := if number = 5 then (names1.drop 1).take 5 else names1
  if invert then names2.reverse else names2

/-- Reduction `array.min()` on a non-empty list (0 is an unused default: `automf`
raises on an empty universe before calling it). -/
def listMin : List ℚ → ℚ
  | [] => 0
  | x :: xs => xs.foldl min x

/-- Reduction `array.max()` on a non-empty list. -/
def listMax : List ℚ → ℚ
  | [] => 0
  | x :: xs => xs.foldl max x

/-- Sampling `np.linspace(a, b, n)`: `n` evenly spaced samples, first `a`, last `b`. -/
def linspaceQ (a b : ℚ) (n : ℕ) : List ℚ :=
  (List.range n).map (fun i : ℕ => a + (b - a) * (i : ℚ) / ((n : ℚ) - 1))

/-- The shared width of every partition (source line 198):
`universe_range / ((number - 1) / 2.)`. -/
def automfWidth (u : List ℚ) (number : Int) : ℚ :=
  (listMax u - listMin u) / (((number : ℚ) - 1) / 2)

/-- The breakpoint triples of `automf` (source lines 199-201): evenly
spaced centers `c` with breakpoints `[c - w/2, c, c + w/2]`, not clamped to
the universe bounds. -/
def automfAbcs (u : List ℚ) (number : Int) : List (ℚ × ℚ × ℚ) :=
  (linspaceQ (listMin u) (listMax u) number.toNat).map
    (fun c => (c - automfWidth u number / 2, c, c + automfWidth u number / 2))

/-- The (name, membership array) pairs inserted by the repopulation loop of
`automf` (source lines 211-212): `zip(names, abcs)` with `trimf` applied. -/
def automfPairs (u : List ℚ) (number : Int) (vtype : String) (invert : Bool) :
    List (String × PyVal) :=
  (automfNames vtype number invert).zip
    ((automfAbcs u number).map (fun abc => PyVal.ndarray (trimf u abc)))

/-- How a call to `automf` terminates: a normal return, a non-exceptional
`return` of an error VALUE (source line 194 returns the `ValueError`
instead of raising it), or a raised exception. -/
inductive AutomfResult where
  | normal
  | returnedValue (e : PyExc)
  | raised (e : PyExc)
  deriving DecidableEq

/-- The repopulation loop of `automf` (source lines 211-212): sequential
`self[name] = trimf(...)` writes; an exception stops the loop with the
mutations so far committed. -/
def repopulate (s : FuzzyVariable) :
    List (String × PyVal) → FuzzyVariable × Option PyExc
  | [] => (s, none)
  | (k, v) :: rest =>
    match setitem s k v with
    | (s1, none) => repopulate s1 rest
    | (s1, some e) => (s1, some e)

/-- Method `FuzzyVariable.automf` (source lines 122-212).  The name list is
computed (and `invert` applied) before the `number` validation; an invalid
`number` RETURNS a `ValueError` object without raising and without touching
any state (lines 191-194).  For a valid `number`, `self.universe.min()`
raises on an empty universe (line 196, before the clear); otherwise the
registry is cleared (line 204), `self.__name__` is read (line 205, an
`AttributeError` on a plain instance — after the clear), the output slot is
reset, and the registry is repopulated. -/
def automf (s : FuzzyVariable) (number : Int) (vtype : String) (invert : Bool) :
    FuzzyVariable × AutomfResult :=
  if number ≠ 3 ∧ number ≠ 5 ∧ number ≠ 7 then
    (s, .returnedValue (.valueError "Only number = 3, 5, or 7 supported."))
  else if s.univ = [] then
    (s, .raised (.valueError zeroSizeMsg))
  else
    match s.name with
    | none => ({ s with mf := [] }, .raised (.attributeError noNameMsg))
    | some nm =>
      match repopulate
          { s with mf := [],
                   output := if nm = "Antecedent" then some () else none }
          (automfPairs s.univ number vtype invert) with
      | (s3, none) => (s3, .normal)
      | (s3, some e) => (s3, .raised e)

/-- A mutating operation on the registry: an indexed write or an `automf`
call. -/
inductive Op where
  | write (key : String) (item : PyVal)
  | auto (number : Int) (vtype : String) (invert : Bool)

/-- The state reached after an operation (exceptions propagate to the
caller; the state they leave behind is what the next operation would see). -/
def applyOp (s : FuzzyVariable) : Op → FuzzyVariable
  | .write k v => (setitem s k v).1
  | .auto n t i => (automf s n t i).1

/-- The state after a sequence of operations. -/
def runOps (s : FuzzyVariable) (ops : List Op) : FuzzyVariable :=
  ops.foldl applyOp s

/-- Every registered membership function has the same length as the
universe. -/
abbrev lengthInv (s : FuzzyVariable) : Prop :=
  ∀ p ∈ s.mf, (elems p.2).length = s.univ.length

/-- Every element of every registered membership function lies in [0, 1]. -/
abbrev unitBounded (s : FuzzyVariable) : Prop :=
  ∀ p ∈ s.mf, ∀ x ∈ elems p.2, 0 ≤ x ∧ x ≤ 1

/-- Written from the spec's wording of step 4 of the `automf` algorithm,
for the refinement check: "`number` evenly spaced centers spanning the
universe's minimum to maximum inclusive". -/
def specCenters (lo hi : ℚ) (n : ℕ) : List ℚ :=
  (List.range n).map (fun i : ℕ => lo + (hi - lo) * (i : ℚ) / ((n : ℚ) - 1))

/-- Written from the spec's wording of step 5: the uniform width
`(max − min) / ((number − 1) / 2)` shared by all partitions. -/
def specWidth (lo hi : ℚ) (n : ℕ) : ℚ :=
  (hi - lo) / (((n : ℚ) - 1) / 2)

/-- Written from the spec's wording of step 6: breakpoints
`[c − width/2, c, c + width/2]` for each center `c`, with no clamping to
the universe bounds. -/
def specAbcs (lo hi : ℚ) (n : ℕ) : List (ℚ × ℚ × ℚ) :=
  (specCenters lo hi n).map
    (fun c => (c - specWidth lo hi n / 2, c, c + specWidth lo hi n / 2))

/-- A concrete variable used to evaluate the operations: universe of length
2, one manually registered membership function, no `__name__` attribute. -/
def sampleVar : FuzzyVariable :=
  { univ := [0, 1], active := none, mf := [("low", .ndarray [1, 0])],
    label := "temp", name := none, output := none }

/-- The universe `np.linspace(0, 10, 11)` of the spec's scenario, written
out (the equality with `linspaceQ 0 10 11` is proved in
`qualityUniverse_eq_linspace`). -/
def qualityUniverse : List ℚ := [0, 1, 2, 3, 4, 5, 6, 7, 8, 9, 10]

/-- A variable over `linspace(0, 10, 11)` whose class provides `__name__`
(an `Antecedent`), as in the spec's `automf(3, "quality")` scenario. -/
def qvar : FuzzyVariable :=
  { univ := qualityUniverse, active := none, mf := [], label := "quality",
    name := some "Antecedent", output := none }

/-- A variable with registered labels `low` and `high` and `__name__` set,
used for the unregistered-read scenario. -/
def lhVar : FuzzyVariable :=
  { univ := [0, 1], active := none,
    mf := [("low", .ndarray [1, 0]), ("high", .ndarray [0, 1])],
    label := "temperature", name := some "Antecedent", output := none }

/- ------------------------------------------------------------------ -/
/- Helper lemmas                                                       -/
/- ------------------------------------------------------------------ -/

lemma elems_asarray (v : PyVal) : elems (asarray v) = elems v := by
  cases v <;> rfl

lemma trimf_length (u : List ℚ) (abc : ℚ × ℚ × ℚ) :
    (trimf u abc).length = u.length := by
  simp [trimf]

lemma trimfAt_bounds (a b c x : ℚ) :
    0 ≤ trimfAt a b c x ∧ trimfAt a b c x ≤ 1 := by
  unfold trimfAt
  split
  · exact ⟨zero_le_one, le_refl 1⟩
  · split
    · next h =>
      obtain ⟨h1, h2⟩ := h
      have hba : (0 : ℚ) < b - a := by linarith
      constructor
      · apply div_nonneg <;> linarith
      · rw [div_le_one hba]; linarith
    · split
      · next h =>
        obtain ⟨h1, h2⟩ := h
        have hcb : (0 : ℚ) < c - b := by linarith
        constructor
        · apply div_nonneg <;> linarith
        · rw [div_le_one hcb]; linarith
      · exact ⟨le_refl 0, zero_le_one⟩

lemma setitem_success (s : FuzzyVariable) (k : String) (v : PyVal)
    (h : (elems v).length = s.univ.length) :
    setitem s k v = ({ s with mf := updateAssoc s.mf k v }, none) := by
  simp [setitem, elems_asarray, h]

lemma setitem_fail_fst (s : FuzzyVariable) (k : String) (v : PyVal)
    (h : (elems v).length ≠ s.univ.length) :
    (setitem s k v).1 = s := by
  unfold setitem
  rw [elems_asarray, if_pos h]
  cases hv : sizeAttr v <;> rfl

lemma updateAssoc_fresh (l : List (String × PyVal)) (k : String) (v : PyVal)
    (h : l.any (fun p => p.1 == k) = false) :
    updateAssoc l k v = l ++ [(k, v)] := by
  simp [updateAssoc, h]

lemma mem_updateAssoc {l : List (String × PyVal)} {k : String} {v : PyVal}
    {p : String × PyVal} (hp : p ∈ updateAssoc l k v) : p ∈ l ∨ p = (k, v) := by
  unfold updateAssoc at hp
  split at hp
  · obtain ⟨q, hq, hq2⟩ := List.mem_map.1 hp
    by_cases hqk : q.1 == k
    · right
      rw [if_pos hqk] at hq2
      exact hq2.symm
    · left
      rw [if_neg hqk] at hq2
      exact hq2 ▸ hq
  · rcases List.mem_append.1 hp with h | h
    · left; exact h
    · right; simpa using h

lemma mfLookup_append_fresh (l : List (String × PyVal)) (k : String) (v : PyVal)
    (h : l.any (fun p => p.1 == k) = false) :
    mfLookup (l ++ [(k, v)]) k = some v := by
  induction l with
  | nil => simp [mfLookup]
  | cons a tl ih =>
    simp only [List.any_cons, Bool.or_eq_false_iff] at h
    have hak : a.1 ≠ k := by simpa using h.1
    simpa [mfLookup, hak] using ih h.2

lemma mfLookup_map_replace (l : List (String × PyVal)) (k : String) (v : PyVal)
    (h : l.any (fun p => p.1 == k) = true) :
    mfLookup (l.map (fun p => if p.1 == k then (k, v) else p)) k = some v := by
  induction l with
  | nil => simp at h
  | cons a tl ih =>
    by_cases hak : a.1 = k
    · simp [mfLookup, hak]
    · have htl : tl.any (fun p => p.1 == k) = true := by
        simpa [hak] using h
      simpa [mfLookup, hak] using ih htl

lemma mfLookup_updateAssoc (l : List (String × PyVal)) (k : String) (v : PyVal) :
    mfLookup (updateAssoc l k v) k = some v := by
  unfold updateAssoc
  by_cases h : l.any (fun p => p.1 == k) = true
  · rw [if_pos h]
    exact mfLookup_map_replace l k v h
  · rw [if_neg h]
    exact mfLookup_append_fresh l k v (Bool.eq_false_iff.mpr h)

lemma repopulate_eq (pairs : List (String × PyVal)) :
    ∀ s : FuzzyVariable,
      (∀ p ∈ pairs, (elems p.2).length = s.univ.length) →
      (∀ p ∈ pairs, s.mf.any (fun q => q.1 == p.1) = false) →
      (pairs.map Prod.fst).Nodup →
      repopulate s pairs = ({ s with mf := s.mf ++ pairs }, none) := by
  induction pairs with
  | nil => intro s _ _ _; simp [repopulate]
  | cons hd tl ih =>
    intro s hlen hfresh hnd
    obtain ⟨k, v⟩ := hd
    have hset : setitem s k v = ({ s with mf := updateAssoc s.mf k v }, none) :=
      setitem_success s k v (hlen (k, v) (List.mem_cons_self _ _))
    have hupd : updateAssoc s.mf k v = s.mf ++ [(k, v)] :=
      updateAssoc_fresh s.mf k v (hfresh (k, v) (List.mem_cons_self _ _))
    have hknot : k ∉ tl.map Prod.fst := by
      simpa using (List.nodup_cons.1 hnd).1
    have hstep : repopulate s ((k, v) :: tl)
        = repopulate { s with mf := s.mf ++ [(k, v)] } tl := by
      rw [repopulate, hset, hupd]
    rw [hstep, ih { s with mf := s.mf ++ [(k, v)] }
      (fun p hp => hlen p (List.mem_cons_of_mem _ hp))
      (fun p hp => by
        have h1 : s.mf.any (fun q => q.1 == p.1) = false :=
          hfresh p (List.mem_cons_of_mem _ hp)
        have h2 : k ≠ p.1 := by
          intro hk
          exact hknot (hk ▸ List.mem_map_of_mem Prod.fst hp)
        simp [List.any_append, h1, h2])
      (List.nodup_cons.1 hnd).2]
    simp

lemma automf_invalid (s : FuzzyVariable) (n : Int) (t : String) (inv : Bool)
    (h : n ≠ 3 ∧ n ≠ 5 ∧ n ≠ 7) :
    automf s n t inv
      = (s, .returnedValue (.valueError "Only number = 3, 5, or 7 supported.")) := by
  unfold automf
  rw [if_pos h]

lemma automf_empty_univ (s : FuzzyVariable) (n : Int) (t : String) (inv : Bool)
    (hn : ¬(n ≠ 3 ∧ n ≠ 5 ∧ n ≠ 7)) (hu : s.univ = []) :
    automf s n t inv = (s, .raised (.valueError zeroSizeMsg)) := by
  unfold automf
  rw [if_neg hn, if_pos hu]

lemma automf_no_name (s : FuzzyVariable) (n : Int) (t : String) (inv : Bool)
    (hn : ¬(n ≠ 3 ∧ n ≠ 5 ∧ n ≠ 7)) (hu : s.univ ≠ []) (hnm : s.name = none) :
    automf s n t inv
      = ({ s with mf := [] }, .raised (.attributeError noNameMsg)) := by
  unfold automf
  rw [if_neg hn, if_neg hu, hnm]

lemma automfNames_spec (t : String) (inv : Bool) (n : Int)
    (hn : n = 3 ∨ n = 5 ∨ n = 7) :
    (automfNames t n inv).length = n.toNat ∧ (automfNames t n inv).Nodup := by
  rcases hn with rfl | rfl | rfl <;>
    cases inv <;>
      by_cases h : pyLower t = "quality" <;>
        simp [automfNames, h, qualityNames, quantNames, everyOther]

lemma automfAbcs_length (u : List ℚ) (n : Int) :
    (automfAbcs u n).length = n.toNat := by
  unfold automfAbcs linspaceQ
  rw [List.length_map, List.length_map, List.length_range]

lemma automfPairs_map_fst (u : List ℚ) (n : Int) (t : String) (inv : Bool)
    (hn : n = 3 ∨ n = 5 ∨ n = 7) :
    (automfPairs u n t inv).map Prod.fst = automfNames t n inv := by
  apply List.map_fst_zip
  rw [(automfNames_spec t inv n hn).1, List.length_map, automfAbcs_length]

lemma automfPairs_map_snd (u : List ℚ) (n : Int) (t : String) (inv : Bool)
    (hn : n = 3 ∨ n = 5 ∨ n = 7) :
    (automfPairs u n t inv).map Prod.snd
      = (automfAbcs u n).map (fun abc => PyVal.ndarray (trimf u abc)) := by
  apply List.map_snd_zip
  rw [(automfNames_spec t inv n hn).1, List.length_map, automfAbcs_length]

lemma automfPairs_snd_mem {u : List ℚ} {n : Int} {t : String} {inv : Bool}
    {p : String × PyVal} (hp : p ∈ automfPairs u n t inv) :
    ∃ abc, p.2 = PyVal.ndarray (trimf u abc) := by
  obtain ⟨k, v⟩ := p
  have h2 := (List.of_mem_zip hp).2
  obtain ⟨abc, _, habc⟩ := List.mem_map.1 h2
  exact ⟨abc, habc.symm⟩

lemma automf_valid (s : FuzzyVariable) (n : Int) (t : String) (inv : Bool)
    (nm : String) (hn : n = 3 ∨ n = 5 ∨ n = 7) (hu : s.univ ≠ [])
    (hnm : s.name = some nm) :
    automf s n t inv
      = ({ s with mf := automfPairs s.univ n t inv,
                  output := if nm = "Antecedent" then some () else none },
         .normal) := by
  have hval : ¬(n ≠ 3 ∧ n ≠ 5 ∧ n ≠ 7) := by tauto
  have hred : automf s n t inv
      = match repopulate
          { s with mf := [],
                   output := if nm = "Antecedent" then some () else none }
          (automfPairs s.univ n t inv) with
        | (s3, none) => (s3, AutomfResult.normal)
        | (s3, some e) => (s3, AutomfResult.raised e) := by
    unfold automf
    rw [if_neg hval, if_neg hu, hnm]
  rw [hred]
  rw [repopulate_eq (automfPairs s.univ n t inv)
    { s with mf := [], output := if nm = "Antecedent" then some () else none }
    (fun p hp => by
      obtain ⟨abc, habc⟩ := automfPairs_snd_mem hp
      rw [habc]
      exact trimf_length s.univ abc)
    (fun p _ => rfl)
    (by rw [automfPairs_map_fst s.univ n t inv hn]
        exact (automfNames_spec t inv n hn).2)]
  rfl

lemma lengthInv_setitem (s : FuzzyVariable) (k : String) (v : PyVal)
    (h : lengthInv s) : lengthInv ((setitem s k v).1) := by
  by_cases hc : (elems v).length = s.univ.length
  · rw [setitem_success s k v hc]
    intro p hp
    rcases mem_updateAssoc hp with h1 | h1
    · exact h p h1
    · rw [h1]; exact hc
  · rw [setitem_fail_fst s k v hc]
    exact h

lemma lengthInv_automf (s : FuzzyVariable) (n : Int) (t : String) (inv : Bool)
    (h : lengthInv s) : lengthInv ((automf s n t inv).1) := by
  by_cases hn : n = 3 ∨ n = 5 ∨ n = 7
  · by_cases hu : s.univ = []
    · rw [automf_empty_univ s n t inv (by tauto) hu]
      exact h
    · cases hnm : s.name with
      | none =>
        rw [automf_no_name s n t inv (by tauto) hu hnm]
        intro p hp
        simp at hp
      | some nm =>
        rw [automf_valid s n t inv nm hn hu hnm]
        intro p hp
        obtain ⟨abc, habc⟩ := automfPairs_snd_mem hp
        have hl : (elems p.2).length = s.univ.length := by
          rw [habc]
          exact trimf_length s.univ abc
        exact hl
  · rw [automf_invalid s n t inv (by tauto)]
    exact h

lemma lengthInv_runOps (s : FuzzyVariable) (ops : List Op) (h : lengthInv s) :
    lengthInv (runOps s ops) := by
  induction ops generalizing s with
  | nil => exact h
  | cons o rest ih =>
    cases o with
    | write k v => exact ih _ (lengthInv_setitem s k v h)
    | auto n t i => exact ih _ (lengthInv_automf s n t i h)

lemma unitBounded_automf (s : FuzzyVariable) (n : Int) (t : String) (inv : Bool)
    (hn : n = 3 ∨ n = 5 ∨ n = 7) (hu : s.univ ≠ []) :
    unitBounded ((automf s n t inv).1) := by
  cases hnm : s.name with
  | none =>
    rw [automf_no_name s n t inv (by tauto) hu hnm]
    intro p hp
    simp at hp
  | some nm =>
    rw [automf_valid s n t inv nm hn hu hnm]
    intro p hp x hx
    obtain ⟨abc, habc⟩ := automfPairs_snd_mem hp
    rw [habc] at hx
    simp only [elems, trimf, List.mem_map] at hx
    obtain ⟨y, _, hy⟩ := hx
    exact hy ▸ trimfAt_bounds abc.1 abc.2.1 abc.2.2 y

lemma qualityUniverse_eq_linspace : linspaceQ 0 10 11 = qualityUniverse := by
  norm_num [linspaceQ, qualityUniverse, List.range_succ]

lemma automfNames_invert (t : String) (n : Int) :
    automfNames t n true = (automfNames t n false).reverse := rfl

/- ------------------------------------------------------------------ -/
/- Claim theorems                                                      -/
/- ------------------------------------------------------------------ -/

/-- Claim C1 (code bug).  The claim says an invalid `number` raises an
`InvalidArgument`-class exception that propagates to the caller.  The code
instead executes `return ValueError(...)` (source line 194): the call
terminates normally with the error object as its VALUE, no exception is
raised.  This theorem evaluates the embedding at the failing input
`number = 4`. -/
theorem automf_invalid_number_returns_error_value :
    automf sampleVar 4 "quality" false
      = (sampleVar, AutomfResult.returnedValue
          (PyExc.valueError "Only number = 3, 5, or 7 supported.")) := by
  decide

/-- Claim C2 (corrected).  An indexed read with an unregistered label on a
variable whose `__name__` attribute is set fails with a `ValueError` — not
a `LookupError`-class error as claimed — whose message enumerates the
registered labels in insertion order in the source's format. -/
theorem getitem_unregistered_raises_value_error (s : FuzzyVariable)
    (key nm : String) (h1 : s.name = some nm) (h2 : hasLabel s key = false) :
    getitem s key = Except.error (PyExc.valueError
        (unregisteredMsg key nm s.label (s.mf.map Prod.fst))) ∧
    (PyExc.valueError
        (unregisteredMsg key nm s.label (s.mf.map Prod.fst))).isLookupErrorClass
      = false := by
  constructor
  · unfold getitem
    rw [if_neg (by simp [h2]), h1]
  · rfl

/-- Witness for C2 at a concrete variable with labels `low`, `high`. -/
theorem getitem_unregistered_raises_value_error_witness :
    getitem lhVar "medium" = Except.error (PyExc.valueError
        (unregisteredMsg "medium" "Antecedent" lhVar.label (lhVar.mf.map Prod.fst))) ∧
    (PyExc.valueError
        (unregisteredMsg "medium" "Antecedent" lhVar.label
          (lhVar.mf.map Prod.fst))).isLookupErrorClass = false :=
  getitem_unregistered_raises_value_error lhVar "medium" "Antecedent" rfl (by decide)

deriving instance DecidableEq for Except

/-- Counterexample to C2 as stated: at the concrete variable with labels
`low` and `high`, the error produced for key `medium` is a `ValueError`
(message shown in the source's exact format), and a `ValueError` is not in
Python's `LookupError` class hierarchy. -/
theorem getitem_unregistered_error_not_lookup_class :
    getitem lhVar "medium" = Except.error (PyExc.valueError
      ("Membership function " ++ quoteCh ++ "medium" ++ quoteCh
        ++ " does not exist for Antecedent temperature.\nAvailable options: "
        ++ quoteCh ++ "low" ++ quoteCh ++ ", or " ++ quoteCh ++ "high"
        ++ quoteCh ++ ".")) ∧
    (PyExc.valueError
      ("Membership function " ++ quoteCh ++ "medium" ++ quoteCh
        ++ " does not exist for Antecedent temperature.\nAvailable options: "
        ++ quoteCh ++ "low" ++ quoteCh ++ ", or " ++ quoteCh ++ "high"
        ++ quoteCh ++ ".")).isLookupErrorClass = false := by
  constructor
  · decide
  · rfl

/-- Claim C3 (corrected).  For universe `linspace(0, 10, 11)` on a variable
whose class provides `__name__`, `automf(3, "quality")` populates the
registry with exactly the labels `poor`, `average`, `good` (in that
order) — the `names[1:6:2]` slice takes the 2nd, 4th and 6th vocabulary
entries, so the third label is `good`, not `decent` as claimed — each an
11-element triangular array peaking (value 1) at universe points 0, 5 and
10 respectively. -/
theorem automf_three_quality_scenario :
    (automf qvar 3 "quality" false).1.mf =
      [("poor", PyVal.ndarray [1, 4/5, 3/5, 2/5, 1/5, 0, 0, 0, 0, 0, 0]),
       ("average", PyVal.ndarray [0, 1/5, 2/5, 3/5, 4/5, 1, 4/5, 3/5, 2/5, 1/5, 0]),
       ("good", PyVal.ndarray [0, 0, 0, 0, 0, 0, 1/5, 2/5, 3/5, 4/5, 1])] ∧
    (automf qvar 3 "quality" false).2 = AutomfResult.normal ∧
    linspaceQ 0 10 11 = qualityUniverse ∧
    qualityUniverse.length = 11 := by
  have hu : qvar.univ ≠ [] := by simp [qvar, qualityUniverse]
  have h := automf_valid qvar 3 "quality" false "Antecedent" (Or.inl rfl) hu rfl
  have hmin : listMin qvar.univ = 0 := by
    norm_num [qvar, qualityUniverse, listMin, min_def]
  have hmax : listMax qvar.univ = 10 := by
    norm_num [qvar, qualityUniverse, listMax, max_def]
  have hw : automfWidth qvar.univ 3 = 10 := by
    rw [automfWidth, hmin, hmax]
    norm_num
  have habcs : automfAbcs qvar.univ 3
      = [(-5, 0, 5), (0, 5, 10), (5, 10, 15)] := by
    simp only [automfAbcs, hw]
    rw [hmin, hmax]
    simp only [show (3 : Int).toNat = 3 from rfl]
    norm_num [linspaceQ, List.range_succ, List.range_zero]
  have hnames : automfNames "quality" 3 false = ["poor", "average", "good"] := by
    decide
  refine ⟨?_, ?_, qualityUniverse_eq_linspace, rfl⟩
  · rw [h]
    show automfPairs qvar.univ 3 "quality" false = _
    rw [automfPairs, hnames, habcs]
    norm_num [trimf, trimfAt, qvar, qualityUniverse]
  · rw [h]

/-- Counterexample to C3 as stated: the third generated label is `good`,
not `decent`. -/
theorem automf_three_quality_third_label_not_decent :
    (automf qvar 3 "quality" false).1.mf.map Prod.fst = ["poor", "average", "good"] ∧
    (automf qvar 3 "quality" false).1.mf.map Prod.fst ≠ ["poor", "average", "decent"] := by
  decide

/-- Claim C4 (confirmed).  `automf` with an invalid `number` returns at the
validation (source line 194) before the registry-clearing statement at
line 204 ever runs: the whole state, in particular every pre-existing
registry entry, is left untouched. -/
theorem automf_invalid_number_preserves_state (s : FuzzyVariable) (n : Int)
    (t : String) (inv : Bool) (h : n ≠ 3 ∧ n ≠ 5 ∧ n ≠ 7) :
    (automf s n t inv).1 = s ∧ (automf s n t inv).1.mf = s.mf := by
  rw [automf_invalid s n t inv h]
  exact ⟨rfl, rfl⟩

/-- Witness for C4 at `number = 4` on a variable holding a manually
assigned membership function. -/
theorem automf_invalid_number_preserves_state_witness :
    (automf sampleVar 4 "quality" false).1 = sampleVar ∧
    (automf sampleVar 4 "quality" false).1.mf = sampleVar.mf :=
  automf_invalid_number_preserves_state sampleVar 4 "quality" false (by decide)

/-- Claim C5 (corrected).  After any sequence of indexed writes and `automf`
calls, every registered membership function keeps the same length as the
universe (given the invariant held initially, e.g. from a fresh variable);
and after an `automf` call with a valid `number` on a non-empty universe
every stored element lies in [0, 1].  The [0, 1] part of the claim fails
for indexed writes, which accept arbitrary values (see the
counterexample). -/
theorem registry_length_invariant_and_automf_unit_bounds :
    (∀ (s : FuzzyVariable) (ops : List Op), lengthInv s → lengthInv (runOps s ops)) ∧
    (∀ (s : FuzzyVariable) (n : Int) (t : String) (inv : Bool),
        (n = 3 ∨ n = 5 ∨ n = 7) → s.univ ≠ [] →
        unitBounded ((automf s n t inv).1)) :=
  ⟨fun s ops h => lengthInv_runOps s ops h,
   fun s n t inv hn hu => unitBounded_automf s n t inv hn hu⟩

/-- Witness for C5: the length invariant after a concrete write. -/
theorem registry_length_invariant_witness :
    lengthInv (runOps sampleVar [Op.write "x" (PyVal.ndarray [0, 1])]) :=
  registry_length_invariant_and_automf_unit_bounds.1 sampleVar
    [Op.write "x" (PyVal.ndarray [0, 1])] (by decide)

/-- Counterexample to C5 as stated: an indexed write of a length-matching
array with an element 2 outside [0, 1] is accepted, so the registry holds
a value outside the unit interval. -/
theorem indexed_write_stores_value_outside_unit_interval :
    ¬ unitBounded (runOps (FuzzyVariable.mkVar [0] "v")
        [Op.write "x" (PyVal.ndarray [2])]) := by
  decide

/-- Claim C6 (confirmed).  A length-matching indexed write succeeds and the
subsequent read of `variable.mf[label]` returns the stored value, whose
elements are exactly those of `np.asarray(arr)` (conversion preserves the
numeric contents). -/
theorem setitem_roundtrip (s : FuzzyVariable) (key : String) (item : PyVal)
    (h : (elems item).length = s.univ.length) :
    (setitem s key item).2 = none ∧
    mfLookup ((setitem s key item).1).mf key = some item ∧
    elems item = elems (asarray item) := by
  rw [setitem_success s key item h]
  exact ⟨rfl, mfLookup_updateAssoc s.mf key item, (elems_asarray item).symm⟩

/-- Witness for C6 at a concrete write. -/
theorem setitem_roundtrip_witness :
    (setitem sampleVar "x" (PyVal.ndarray [1/2, 0])).2 = none ∧
    mfLookup ((setitem sampleVar "x" (PyVal.ndarray [1/2, 0])).1).mf "x"
      = some (PyVal.ndarray [1/2, 0]) ∧
    elems (PyVal.ndarray [1/2, 0]) = elems (asarray (PyVal.ndarray [1/2, 0])) :=
  setitem_roundtrip sampleVar "x" (PyVal.ndarray [1/2, 0]) (by decide)

/-- Claim C7 (code bug).  The claim says every length-mismatched indexed
write fails with a `ValueError` stating expected vs. got lengths.  When the
assigned value is a plain Python list, formatting the message evaluates
`item.size` on the original list (source line 90) and fails with an
`AttributeError` instead.  The state is left unmutated either way.  This
theorem evaluates the embedding at the failing input: universe of length
2, `v["a"] = [1/2]` a plain list of length 1. -/
theorem setitem_list_length_mismatch_attribute_error :
    setitem sampleVar "a" (PyVal.pyList [1/2])
      = (sampleVar, some (PyExc.attributeError listNoSizeMsg)) ∧
    sampleVar.univ.length = 2 ∧ (elems (PyVal.pyList [1/2])).length = 1 := by
  decide

/-- Claim C8 (confirmed).  For a valid `number`, `invert=True` reverses only
the name list (computed before the breakpoints, source lines 188-189): the
membership arrays in the registry are positionally identical to the
`invert=False` call, and the label sequence is exactly reversed. -/
theorem automf_invert_only_reverses_names (s : FuzzyVariable) (n : Int)
    (t : String) (hn : n = 3 ∨ n = 5 ∨ n = 7) (hu : s.univ ≠ []) :
    (automf s n t true).1.mf.map Prod.snd
      = (automf s n t false).1.mf.map Prod.snd ∧
    (automf s n t true).1.mf.map Prod.fst
      = ((automf s n t false).1.mf.map Prod.fst).reverse := by
  cases hnm : s.name with
  | none =>
    rw [automf_no_name s n t true (by tauto) hu hnm,
        automf_no_name s n t false (by tauto) hu hnm]
    exact ⟨rfl, rfl⟩
  | some nm =>
    rw [automf_valid s n t true nm hn hu hnm,
        automf_valid s n t false nm hn hu hnm]
    dsimp only
    constructor
    · rw [automfPairs_map_snd s.univ n t true hn,
          automfPairs_map_snd s.univ n t false hn]
    · rw [automfPairs_map_fst s.univ n t true hn,
          automfPairs_map_fst s.univ n t false hn,
          automfNames_invert t n]

/-- Witness for C8 at the `linspace(0, 10, 11)` quality variable. -/
theorem automf_invert_only_reverses_names_witness :
    (automf qvar 3 "quality" true).1.mf.map Prod.snd
      = (automf qvar 3 "quality" false).1.mf.map Prod.snd ∧
    (automf qvar 3 "quality" true).1.mf.map Prod.fst
      = ((automf qvar 3 "quality" false).1.mf.map Prod.fst).reverse :=
  automf_invert_only_reverses_names qvar 3 "quality" (Or.inl rfl)
    (by simp [qvar, qualityUniverse])

/-- Claim C9 (confirmed).  For a valid `number` the registry's membership
arrays are exactly `trimf` applied to the breakpoint triples of the spec's
algorithm: `number` evenly spaced centers whose first element is the
universe minimum and last the universe maximum, a single shared width
`(max − min) / ((number − 1) / 2)`, and per-center breakpoints
`[c − w/2, c, c + w/2]` with no clamping to the universe bounds. -/
theorem automf_partition_breakpoints_match_spec (s : FuzzyVariable) (n : Int)
    (t : String) (inv : Bool) (nm : String) (hn : n = 3 ∨ n = 5 ∨ n = 7)
    (hu : s.univ ≠ []) (hname : s.name = some nm) :
    (automf s n t inv).1.mf.map Prod.snd
      = (specAbcs (listMin s.univ) (listMax s.univ) n.toNat).map
          (fun abc => PyVal.ndarray (trimf s.univ abc)) ∧
    (specCenters (listMin s.univ) (listMax s.univ) n.toNat).length = n.toNat ∧
    (specCenters (listMin s.univ) (listMax s.univ) n.toNat).head?
      = some (listMin s.univ) ∧
    (specCenters (listMin s.univ) (listMax s.univ) n.toNat).getLast?
      = some (listMax s.univ) := by
  have hw : specWidth (listMin s.univ) (listMax s.univ) n.toNat
      = automfWidth s.univ n := by
    rcases hn with rfl | rfl | rfl <;>
      simp only [specWidth, automfWidth, show (3 : Int).toNat = 3 from rfl,
        show (5 : Int).toNat = 5 from rfl, show (7 : Int).toNat = 7 from rfl] <;>
      norm_num
  have habcs : specAbcs (listMin s.univ) (listMax s.univ) n.toNat
      = automfAbcs s.univ n := by
    unfold specAbcs automfAbcs
    simp only [hw]
    rfl
  refine ⟨?_, ?_, ?_, ?_⟩
  · rw [automf_valid s n t inv nm hn hu hname]
    dsimp only
    rw [automfPairs_map_snd s.univ n t inv hn, habcs]
  · simp [specCenters]
  · rcases hn with rfl | rfl | rfl <;>
      (simp only [specCenters, show (3 : Int).toNat = 3 from rfl,
          show (5 : Int).toNat = 5 from rfl, show (7 : Int).toNat = 7 from rfl,
          List.range_succ_eq_map, List.map_cons, List.head?_cons,
          Option.some.injEq];
       norm_num)
  · rcases hn with rfl | rfl | rfl <;>
      (simp only [specCenters, show (3 : Int).toNat = 3 from rfl,
          show (5 : Int).toNat = 5 from rfl, show (7 : Int).toNat = 7 from rfl,
          List.range_succ, List.map_append, List.map_cons, List.map_nil,
          List.getLast?_concat, Option.some.injEq];
       push_cast;
       ring_nf)

/-- Witness for C9 at the `linspace(0, 10, 11)` quality variable. -/
theorem automf_partition_breakpoints_match_spec_witness :
    (automf qvar 3 "quality" false).1.mf.map Prod.snd
      = (specAbcs (listMin qvar.univ) (listMax qvar.univ) (3 : Int).toNat).map
          (fun abc => PyVal.ndarray (trimf qvar.univ abc)) ∧
    (specCenters (listMin qvar.univ) (listMax qvar.univ) (3 : Int).toNat).length
      = (3 : Int).toNat ∧
    (specCenters (listMin qvar.univ) (listMax qvar.univ) (3 : Int).toNat).head?
      = some (listMin qvar.univ) ∧
    (specCenters (listMin qvar.univ) (listMax qvar.univ) (3 : Int).toNat).getLast?
      = some (listMax qvar.univ) :=
  automf_partition_breakpoints_match_spec qvar 3 "quality" false "Antecedent"
    (Or.inl rfl) (by simp [qvar, qualityUniverse]) rfl

/-- Claim C10 (confirmed).  `__init__` never sets `__name__`; on a directly
constructed `FuzzyVariable`, an indexed read with an unregistered label
fails with an `AttributeError` (raised while formatting, source line 77)
instead of the documented `ValueError` diagnostic. -/
theorem getitem_no_name_attribute_error (u : List ℚ) (lb : String)
    (s : FuzzyVariable) (key : String)
    (h1 : s.name = none) (h2 : hasLabel s key = false) :
    (FuzzyVariable.mkVar u lb).name = none ∧
    getitem s key = Except.error (PyExc.attributeError noNameMsg) := by
  refine ⟨rfl, ?_⟩
  unfold getitem
  rw [if_neg (by simp [h2]), h1]

/-- Witness for C10: a freshly constructed variable with no `__name__`. -/
theorem getitem_no_name_attribute_error_witness :
    (FuzzyVariable.mkVar [0] "t").name = none ∧
    getitem sampleVar "x" = Except.error (PyExc.attributeError noNameMsg) :=
  getitem_no_name_attribute_error [0] "t" sampleVar "x" rfl (by decide)
